import Mathlib

/-!
Verification development for the STDF PRR extraction pipeline
(`src/extractor.h`, `src/index.cpp`).

The binary container file is modelled as a list of bytes (`List Nat`,
each entry intended `< 256`).  The external record-decoding library
(`stdf_v4_api.h`, not part of this repository) is modelled at the
interface the specification gives for it: a record header is the fixed
4-byte prefix at the cursor, holding a payload length and a kind
discriminator; payload decoding of the target record kind is an
opaque function `List Nat → PrrRecord` that all scanner results are
parametrised over.
-/

/-- Modelled from the spec: the external header reader reads a fixed
4-byte prefix (payload length + kind discriminator).  `byteAt` reads one
byte of the file; out-of-file reads yield 0 (they only occur on paths
where the concrete value is irrelevant to the claims). -/
def byteAt (bytes : List Nat) (i : Nat) : Nat := bytes.getD i 0

/-- Modelled from the spec: payload length field of the header at `pos`
(two bytes, low byte first, matching the single supported CPU type). -/
def lenAt (bytes : List Nat) (pos : Nat) : Nat :=
  byteAt bytes pos + 256 * byteAt bytes (pos + 1)

/-- Modelled from the spec: kind discriminator of the header at `pos`
(the remaining two header bytes). -/
def kindAt (bytes : List Nat) (pos : Nat) : Nat :=
  byteAt bytes (pos + 2) + 256 * byteAt bytes (pos + 3)

/-- Payload bytes of the record whose header sits at `pos`. -/
def payloadAt (bytes : List Nat) (pos len : Nat) : List Nat :=
  (bytes.drop (pos + 4)).take len

/-- `FAR_TYPE` of `src/extractor.h` (File Attributes Record). -/
def FAR_TYPE : Nat := 0

/-- `PRR_TYPE` of `src/extractor.h` (Part Results Record, standard value). -/
def PRR_TYPE : Nat := 16

/-- `PRR_TYPE_ALT1` of `src/extractor.h`. -/
def PRR_TYPE_ALT1 : Nat := 25

/-- `PRR_TYPE_ALT2` of `src/extractor.h`. -/
def PRR_TYPE_ALT2 : Nat := 185

/-- A decoded Part Results Record, modelling the fields of the external
library's `StdfPRR` that `src/extractor.h` reads.  The two text fields
are byte strings behind possibly-null `char*` pointers, hence `Option`. -/
structure PrrRecord where
  headNumber : Int
  siteNumber : Int
  numTest : Int
  hardBin : Int
  softBin : Int
  xCoord : Int
  yCoord : Int
  elapsedMs : Nat
  partId : Option (List Nat)
  partTxt : Option (List Nat)
  superseded : Bool
  abnormal : Bool
  failed : Bool
  invalidFlag : Bool
deriving DecidableEq

/-- One extracted record together with the byte position and payload
length of the record it was decoded from (the extent bookkeeping the
claims speak about). -/
structure Extracted where
  pos : Nat
  len : Nat
  prr : PrrRecord
deriving DecidableEq

/-- The plausibility filter of `extractPrrRecords`
(`src/extractor.h` lines 359-362): records with wildly implausible
bin / head / site values are discarded. -/
def prrSanityOk (r : PrrRecord) : Bool :=
  !(decide (r.hardBin < -10000) || decide (r.softBin < -10000) ||
    decide ((255 : Int) < r.headNumber) || decide ((255 : Int) < r.siteNumber))

/-- The pure membership test of `isPrrRecordType` (`src/extractor.h`
lines 128-142): a discriminator is a PRR kind exactly when it is in the
exact-match set.  The stateful diagnostic bookkeeping of the same
function is modelled separately by `isPrrRecordType` below; it never
influences this result. -/
def isPrrTypeMatch (t : Nat) : Bool :=
  decide (t = PRR_TYPE) || decide (t = PRR_TYPE_ALT1) || decide (t = PRR_TYPE_ALT2)

/-- `StdfExtractor::isInRange` (`src/extractor.h` lines 43-83).
`curPos` is the stream position at the time of the call; at the only
call site (line 319) the 4-byte header has already been consumed, so
`curPos` is the record's start position plus 4.  Record lengths above
the 100000-byte sanity ceiling make the record count as out of range;
negative positions / lengths and the overflow guard cannot occur in the
byte-list model. -/
def isInRange (curPos recLen startPos endPos : Nat) : Bool :=
  decide (recLen ≤ 100000) && decide (startPos ≤ curPos) &&
    decide (curPos + 4 + recLen ≤ endPos)

/-- The record-parsing loop of `StdfExtractor::extractPrrRecords`
(`src/extractor.h` lines 279-405), as a fuel-indexed structural
recursion (each iteration advances the cursor, so any fuel of at least
`endPos` iterations is exact; see `scanRecords`).  Branches:
a header is read at `pos` (4 bytes, failing reads end the loop); records
out of range are skipped by seeking over the payload, with the loop
ending on a non-positive or oversized skip length; in-range records of a
PRR kind are decoded and kept when prrSanityOk; other in-range records are
skipped.  `decode` is the external payload decoder. -/
def scanLoopF (decode : List Nat → PrrRecord) (bytes : List Nat)
    (startPos endPos : Nat) : Nat → Nat → List Extracted
  | 0, _ => []
  | fuel + 1, pos =>
    if pos < endPos ∧ pos + 4 ≤ bytes.length then
      let len := lenAt bytes pos
      let t := kindAt bytes pos
      if isInRange (pos + 4) len startPos endPos then
        if isPrrTypeMatch t then
          let r := decode (payloadAt bytes pos len)
          if prrSanityOk r then
            ⟨pos, len, r⟩ :: scanLoopF decode bytes startPos endPos fuel (pos + 4 + len)
          else scanLoopF decode bytes startPos endPos fuel (pos + 4 + len)
        else
          if 100000 < len then []
          else scanLoopF decode bytes startPos endPos fuel (pos + 4 + len)
      else
        if len = 0 ∨ 100000 < len then []
        else scanLoopF decode bytes startPos endPos fuel (pos + 4 + len)
    else []

/-- The record-parsing loop run from `startPos` with enough fuel to be
exact (the cursor strictly increases each iteration, so `endPos + 1`
iterations are never exhausted before the loop guard stops). -/
def scanRecords (decode : List Nat → PrrRecord) (bytes : List Nat)
    (startPos endPos : Nat) : List Extracted :=
  scanLoopF decode bytes startPos endPos (endPos + 1) startPos

/-- The FAR-record format validation of `extractPrrRecords`
(`src/extractor.h` lines 234-269): the first header must be of the
file-attributes kind and the two payload bytes behind it (CPU type and
STDF version, read by the external `StdfFAR::parse`) must be 2 and 4. -/
def farValid (bytes : List Nat) : Bool :=
  decide (4 ≤ bytes.length) && decide (kindAt bytes 0 = FAR_TYPE) &&
    decide (byteAt bytes 4 = 2) && decide (byteAt bytes 5 = 4)

/-- Clamping of a negative start position to 0
(`src/extractor.h` lines 210-213). -/
def clampStart (s : Int) : Int := if s < 0 then 0 else s

/-- Clamping of a negative or too-large end position to the file size
(`src/extractor.h` lines 215-218). -/
def clampEnd (e fileSize : Int) : Int :=
  if e < 0 ∨ e > fileSize then fileSize else e

/-- The abort conditions `extractPrrRecords` reports through its error
log: failure to open the input file, a degenerate range after clamping,
and the unsupported-format abort of the FAR validation. -/
inductive ExtractSignal
  | ok
  | openFailure
  | invalidRange
  | unsupportedFormat
deriving DecidableEq

/-- Result of one extraction pass: the records (the C++ return value)
plus the abort signal the function logs. -/
structure ExtractResult where
  records : List Extracted
  signal : ExtractSignal
deriving DecidableEq

/-- `StdfExtractor::extractPrrRecords` (`src/extractor.h` lines
190-413).  `file` is `none` when the input file cannot be opened.  The
input range is clamped (`clampStart`, `clampEnd`), a degenerate range
returns an empty result, a scan starting at byte 0 first runs the
one-time FAR validation, and the surviving cases run the record-parsing
loop over the clamped range. -/
def extractPrrRecords (decode : List Nat → PrrRecord)
    (file : Option (List Nat)) (startPos endPos : Int) : ExtractResult :=
  match file with
  | none => ⟨[], .openFailure⟩
  | some bytes =>
    let s := clampStart startPos
    let e := clampEnd endPos bytes.length
    if s ≥ e then ⟨[], .invalidRange⟩
    else
      if s.toNat = 0 then
        if farValid bytes then ⟨scanRecords decode bytes 0 e.toNat, .ok⟩
        else ⟨[], .unsupportedFormat⟩
      else ⟨scanRecords decode bytes s.toNat e.toNat, .ok⟩

/-- The sequence of record headers laid head-to-tail from `pos`
(fuel-indexed helper; see `chain`).  Each element is
`(position, kind, payload length)`. -/
def chainF (bytes : List Nat) : Nat → Nat → List (Nat × Nat × Nat)
  | 0, _ => []
  | fuel + 1, pos =>
    if pos + 4 ≤ bytes.length then
      (pos, kindAt bytes pos, lenAt bytes pos) ::
        chainF bytes fuel (pos + 4 + lenAt bytes pos)
    else []

/-- The record tiling of the file from `pos`: the headers the scanner's
cursor would visit, independent of any extraction range.  Fuel
`bytes.length + 1` is always sufficient because each step advances the
position by at least 4. -/
def chain (bytes : List Nat) (pos : Nat) : List (Nat × Nat × Nat) :=
  chainF bytes (bytes.length + 1) pos

/-- Whether the record-parsing loop over an extraction range ending at
`endPos` keeps the chain record `r`: its length passes the sanity
ceiling, its extent plus the 4 bytes of look-ahead the code's
`isInRange` adds fits below `endPos`, its kind is a PRR kind, and the
decoded record is prrSanityOk. -/
def acceptRec (decode : List Nat → PrrRecord) (bytes : List Nat)
    (endPos : Nat) (r : Nat × Nat × Nat) : Option Extracted :=
  if r.2.2 ≤ 100000 ∧ r.1 + 8 + r.2.2 ≤ endPos ∧ isPrrTypeMatch r.2.1 = true ∧
      prrSanityOk (decode (payloadAt bytes r.1 r.2.2)) = true then
    some ⟨r.1, r.2.2, decode (payloadAt bytes r.1 r.2.2)⟩
  else none

/-- State of the record-type classifier's diagnostic bookkeeping
(`src/extractor.h` lines 145-146): the static frequency table, kept in
ascending key order exactly as a `std::map` iterates, and the running
total of bookkeeping passes. -/
structure ClassifierState where
  typeCount : List (Nat × Nat)
  totalChecks : Nat
deriving DecidableEq

/-- The classifier's state at process start (empty statics). -/
def initClassifier : ClassifierState := ⟨[], 0⟩

/-- `typeCount[type]++` on the key-ordered association list. -/
def bumpCount : List (Nat × Nat) → Nat → List (Nat × Nat)
  | [], t => [(t, 1)]
  | (k, c) :: rest, t =>
    if t < k then (t, 1) :: (k, c) :: rest
    else if t = k then (k, c + 1) :: rest
    else (k, c) :: bumpCount rest t

/-- Insertion step of the frequency sort (descending by count; ties keep
the traversal order, one deterministic refinement of the source's
unstable `std::sort`). -/
def insertByCountDesc (p : Nat × Nat) : List (Nat × Nat) → List (Nat × Nat)
  | [] => [p]
  | q :: rest => if q.2 < p.2 then p :: q :: rest else q :: insertByCountDesc p rest

/-- The frequency sort of `isPrrRecordType` (`src/extractor.h` line 162). -/
def sortByCountDesc : List (Nat × Nat) → List (Nat × Nat)
  | [] => []
  | p :: rest => insertByCountDesc p (sortByCountDesc rest)

/-- Outcome of one classification: the boolean answer, the updated
diagnostic state, and the top-most-common-types diagnostic line when one
is logged this call. -/
structure ClassifyResult where
  isPrr : Bool
  state : ClassifierState
  logged : Option (List (Nat × Nat))
deriving DecidableEq

/-- `StdfExtractor::isPrrRecordType` (`src/extractor.h` lines 124-179).
A discriminator in the exact-match set answers `true` at once (before
any bookkeeping).  Any other discriminator is tallied; every 1000
tallies the types seen more than 50 times are sorted by frequency and
the top 3 are logged (when that list is non-empty). -/
def isPrrRecordType (st : ClassifierState) (t : Nat) : ClassifyResult :=
  if t = PRR_TYPE ∨ t = PRR_TYPE_ALT1 ∨ t = PRR_TYPE_ALT2 then ⟨true, st, none⟩
  else
    let counts := bumpCount st.typeCount t
    let total := st.totalChecks + 1
    if total % 1000 = 0 then
      let sorted := sortByCountDesc (counts.filter (fun p => 50 < p.2))
      if sorted.isEmpty then ⟨false, ⟨counts, total⟩, none⟩
      else ⟨false, ⟨counts, total⟩, some (sorted.take 3)⟩
    else ⟨false, ⟨counts, total⟩, none⟩

/-- `StdfExtractor::sanitizeString` (`src/extractor.h` lines 100-121)
on the byte string behind a non-null `char*`: printable ASCII is kept,
with a backslash put before backslash, double quote and slash; every
other byte becomes a question mark. -/
def sanitizeString : List Nat → String
  | [] => ""
  | c :: rest =>
    (if 32 ≤ c ∧ c < 127 then
      if c = 92 ∨ c = 34 ∨ c = 47 then String.mk [Char.ofNat 92, Char.ofNat c]
      else String.mk [Char.ofNat c]
    else ("?")) ++ sanitizeString rest

/-- The JSON documents built through the external serialization library
(`nlohmann::json`), modelled structurally; object fields are listed in
insertion order. -/
inductive Json
  | num (n : Int)
  | str (s : String)
  | bool (b : Bool)
  | arr (xs : List Json)
  | obj (fields : List (String × Json))

/-- Field names of a JSON object (empty for other documents). -/
def jsonKeys : Json → List String
  | .obj fields => fields.map (fun p => p.1)
  | _ => []

/-- First field of the given name in a JSON object. -/
def jsonLookup (j : Json) (k : String) : Option Json :=
  match j with
  | .obj fields => (fields.find? (fun p => p.1 == k)).map (fun p => p.2)
  | _ => none

/-- The per-record JSON object of `StdfExtractor::savePrrRecords`
(`src/extractor.h` lines 483-518): the fixed numeric fields, the nested
part-flag object, the two sanitized text fields — added only when the
library hands back a non-null pointer — and the three derived
timestamps (`sot` uses the integer division of the C++ source). -/
def prrToJson (sync : Int) (r : PrrRecord) : Json :=
  .obj ([("head_number", .num r.headNumber),
    ("site_number", .num r.siteNumber),
    ("test_count", .num r.numTest),
    ("hard_bin", .num r.hardBin),
    ("soft_bin", .num r.softBin),
    ("x_coord", .num r.xCoord),
    ("y_coord", .num r.yCoord),
    ("test_time", .num r.elapsedMs),
    ("part_flags", .obj [("superseded", .bool r.superseded),
      ("abnormal", .bool r.abnormal),
      ("failed", .bool r.failed),
      ("invalid_flag", .bool r.invalidFlag)])] ++
    (match r.partId with
      | some p => [("part_id", .str (sanitizeString p))]
      | none => []) ++
    (match r.partTxt with
      | some p => [("part_text", .str (sanitizeString p))]
      | none => []) ++
    [("last_modified", .num sync),
      ("sot", .num (sync - (r.elapsedMs / 1000 : Nat))),
      ("eot", .num sync)])

/-- What `savePrrRecords` writes into the output file: either a `//`
comment line followed by the serialized document (the empty-input
branch) or the serialized document alone.  The text rendering itself is
owned by the external serialization library and out of scope. -/
inductive WrittenContent
  | commentThenJson (comment : String) (doc : Json)
  | jsonOnly (doc : Json)

/-- The comment line of the empty-input branch of `savePrrRecords`
(`src/extractor.h` line 452). -/
def noRecordsComment : String := "// No PRR records found in the processed file range"

/-- Result of `savePrrRecords`: its boolean return value and the file
content it wrote. -/
structure SaveResult where
  success : Bool
  written : WrittenContent

/-- `StdfExtractor::savePrrRecords` (`src/extractor.h` lines 423-538).
An empty record sequence writes the no-records comment line followed by
the serialized empty array and reports success; a non-empty sequence
writes the serialized array of per-record objects and reports success.
The directory-creation and stream-failure branches of the source depend
on the surrounding filesystem and are not modelled (writes succeed). -/
def savePrrRecords (records : List Extracted) (outputFileName : String)
    (sync : Int) : SaveResult :=
  if records.isEmpty then
    ⟨true, .commentThenJson noRecordsComment (.arr [])⟩
  else
    ⟨true, .jsonOnly (.arr (records.map (fun r => prrToJson sync r.prr)))⟩

/-- A value of the parsed checkpoint message body, as the consumer
distinguishes them: a string, a number, JSON null, or any other JSON
value (on which the source's typed getters would throw). -/
inductive JsonVal
  | str (s : String)
  | num (n : Int)
  | null
  | other
deriving DecidableEq

/-- A parsed checkpoint message body: its top-level fields. -/
def Message : Type := List (String × JsonVal)

/-- Field access on the message body (`messageJson.contains` plus
`operator[]`). -/
def getField (m : Message) (k : String) : Option JsonVal :=
  (m.find? (fun p => p.1 == k)).map (fun p => p.2)

/-- The comma-stripping of `consumeMessages`
(`src/index.cpp` lines 192, 207): thousands separators are removed
before numeric conversion. -/
def stripCommas (s : String) : String :=
  String.mk (s.data.filter (fun c => !(c == ',')))

/-- Modelled from the spec: the numeric conversion `std::stoi` used by
`consumeMessages` — optional leading whitespace, an optional sign, then
at least one digit; the conversion fails (throws) when no digit is
found.  Overflow of the C++ `int` is not modelled. -/
def parseIntStr (s : String) : Option Int :=
  let cs := s.data.dropWhile (fun c => c.isWhitespace)
  let core : List Char → Option Nat := fun ds =>
    let digits := ds.takeWhile (fun c => c.isDigit)
    if digits.isEmpty then none
    else some (digits.foldl (fun a c => a * 10 + (c.toNat - 48)) 0)
  match cs with
  | '-' :: rest => (core rest).map (fun n => -(n : Int))
  | '+' :: rest => (core rest).map (fun n => (n : Int))
  | _ => (core cs).map (fun n => (n : Int))

/-- Days from the civil epoch 1970-01-01 for a year/month/day triple
(years counted from 1; the standard civil-from-days arithmetic). -/
def daysFromCivil (y m d : Nat) : Int :=
  let y' := if m ≤ 2 then y - 1 else y
  let era := y' / 400
  let yoe := y' - era * 400
  let mp := if 2 < m then m - 3 else m + 9
  let doy := (153 * mp + 2) / 5 + d - 1
  let doe := yoe * 365 + yoe / 4 - yoe / 100 + doy
  (era * 146097 + doe : Int) - 719468

/-- Epoch second of a civil date-time (the model's rendering of
`mktime`; the process-local timezone is taken as UTC). -/
def epochOfCivil (y mo d h mi s : Nat) : Int :=
  daysFromCivil y mo d * 86400 + (h * 3600 + mi * 60 + s : Nat)

/-- A greedy run of decimal digits at the head of the character list,
with the remaining characters (at least one digit required). -/
def readDigits (cs : List Char) : Option (Nat × List Char) :=
  let digits := cs.takeWhile (fun c => c.isDigit)
  if digits.isEmpty then none
  else some (digits.foldl (fun a c => a * 10 + (c.toNat - 48)) 0, cs.drop digits.length)

/-- The given literal character at the head of the list. -/
def expectChar (c : Char) (cs : List Char) : Option (List Char) :=
  match cs with
  | x :: rest => if x = c then some rest else none
  | [] => none

/-- Modelled from the spec: `strptime` with the fixed format
`%Y/%m/%d %H:%M:%S` followed by `mktime`, as used on a string
`sync_time` (`src/index.cpp` lines 226-236).  Trailing characters (such
as `.123` milliseconds) are ignored, matching `strptime`'s behaviour of
stopping after the last conversion; an unparseable string yields
`none`.  `mktime`'s local-time interpretation is modelled as UTC. -/
def parseDateTime (s : String) : Option Int := do
  let (y, r1) ← readDigits s.data
  let r2 ← expectChar '/' r1
  let (mo, r3) ← readDigits r2
  let r4 ← expectChar '/' r3
  let (d, r5) ← readDigits r4
  let r6 ← expectChar ' ' r5
  let (h, r7) ← readDigits r6
  let r8 ← expectChar ':' r7
  let (mi, r9) ← readDigits r8
  let r10 ← expectChar ':' r9
  let (se, _) ← readDigits r10
  some (epochOfCivil y mo d h mi se)

/-- Outcome of the per-message field normalization of `consumeMessages`
(`src/index.cpp` lines 160-242): the two skip paths for missing
required fields, an uncaught conversion exception (`fault`), or the
normalized file name, range and timestamp. -/
inductive NormResult
  | missingFileName
  | missingReadPos
  | fault
  | ok (fileName : String) (startPos endPos syncTime : Int)
deriving DecidableEq

/-- The field normalization of `consumeMessages` (`src/index.cpp` lines
160-242), for one parsed message body, with `now` the value of
`time(nullptr)` at receipt.  A missing or null `temp_file_name` or
`read_position` is a skip; a string offset has commas stripped and is
converted with `std::stoi` (whose failure, like a typed getter applied
to a value of the wrong kind, is an uncaught exception, `fault`); a
missing `previous_position` defaults to 0; `sync_time` accepts a
parseable date-time string, falls back to `now` on an unparseable one,
accepts a number as-is, and silently stays `now` for other kinds. -/
def normalizeCheckpoint (msg : Message) (now : Int) : NormResult :=
  match getField msg ("temp_file_name") with
  | none => .missingFileName
  | some .null => .missingFileName
  | some (.num _) => .fault
  | some .other => .fault
  | some (.str f) =>
    let sp? : Option Int :=
      match getField msg ("previous_position") with
      | none => some 0
      | some .null => some 0
      | some (.str s) => parseIntStr (stripCommas s)
      | some (.num n) => some n
      | some .other => none
    match sp? with
    | none => .fault
    | some sp =>
      let ep? : Option (Option Int) :=
        match getField msg ("read_position") with
        | none => none
        | some .null => none
        | some (.str s) => some (parseIntStr (stripCommas s))
        | some (.num n) => some (some n)
        | some .other => some none
      match ep? with
      | none => .missingReadPos
      | some none => .fault
      | some (some ep) =>
        let st : Int :=
          match getField msg ("sync_time") with
          | none => now
          | some .null => now
          | some (.str s) => (parseDateTime s).getD now
          | some (.num t) => t
          | some .other => now
        .ok f sp ep st

/-- How the consumer settles a delivered message with the queue:
`amqp_basic_ack` or `amqp_basic_reject` with requeue disabled. -/
inductive Settle
  | ack
  | reject
deriving DecidableEq

/-- The extraction work performed for one structurally valid message:
the normalized range and timestamp, the extracted records, and the
result of writing the JSON artifact. -/
structure WorkInfo where
  startPos : Int
  endPos : Int
  syncTime : Int
  records : List Extracted
  saved : SaveResult

/-- Observable outcome of one loop iteration of `consumeMessages` for a
delivered message: an uncaught exception, or a settlement action with
the work performed (no work for the skip paths). -/
inductive Outcome
  | fault
  | settled (action : Settle) (work : Option WorkInfo)

/-- The per-message processing of `consumeMessages` (`src/index.cpp`
lines 154-293).  The skip paths for missing required fields settle the
message with `amqp_basic_ack` (lines 181, 214) and process no bytes; a
normalized message resolves the file under `/tmp/IFLEX-18/`, extracts
over `[previous_position, read_position)`, writes the JSON artifact,
and acks on success, rejecting without requeue on a failed write.
`fs` is the filesystem: the bytes of each readable path. -/
def processMessage (fs : String → Option (List Nat))
    (decode : List Nat → PrrRecord) (now : Int) (msg : Message) : Outcome :=
  match normalizeCheckpoint msg now with
  | .missingFileName => .settled .ack none
  | .missingReadPos => .settled .ack none
  | .fault => .fault
  | .ok f sp ep st =>
    let ex := extractPrrRecords decode (fs ("/tmp/IFLEX-18/" ++ f)) sp ep
    let sv := savePrrRecords ex.records ("/tmp/IFLEX-18/Output/Output.json") st
    .settled (if sv.success then .ack else .reject) (some ⟨sp, ep, st, ex.records, sv⟩)

theorem scanLoopF_mem_bounds (decode : List Nat → PrrRecord) (bytes : List Nat)
    (startPos endPos : Nat) :
    ∀ fuel pos r, r ∈ scanLoopF decode bytes startPos endPos fuel pos →
      pos ≤ r.pos ∧ r.pos + 8 + r.len ≤ endPos := by
  intro fuel
  induction fuel with
  | zero => intro pos r h; simp [scanLoopF] at h
  | succ n ih =>
    intro pos r h
    simp only [scanLoopF] at h
    split at h
    · split at h
      · rename_i hguard hin
        split at h
        · split at h
          · rcases List.mem_cons.mp h with hr | hr
            · subst hr
              simp only [isInRange, Bool.and_eq_true, decide_eq_true_eq] at hin
              refine ⟨le_refl _, ?_⟩
              show pos + 8 + lenAt bytes pos ≤ endPos
              omega
            · have := ih _ _ hr; omega
          · have := ih _ _ h; omega
        · split at h
          · simp at h
          · have := ih _ _ h; omega
      · split at h
        · simp at h
        · have := ih _ _ h; omega
    · simp at h

theorem chainF_mem_ge (bytes : List Nat) :
    ∀ fuel pos r, r ∈ chainF bytes fuel pos → pos ≤ r.1 := by
  intro fuel
  induction fuel with
  | zero => intro pos r h; simp [chainF] at h
  | succ n ih =>
    intro pos r h
    simp only [chainF] at h
    split at h
    · rcases List.mem_cons.mp h with hr | hr
      · subst hr; exact le_refl _
      · have := ih _ _ hr; omega
    · simp at h

theorem chain_mem_ge (bytes : List Nat) (pos : Nat) (r : Nat × Nat × Nat)
    (h : r ∈ chain bytes pos) : pos ≤ r.1 :=
  chainF_mem_ge bytes _ pos r h

theorem chainF_eq_of_lt (bytes : List Nat) :
    ∀ f₁ f₂ pos, bytes.length - pos < f₁ → bytes.length - pos < f₂ →
      chainF bytes f₁ pos = chainF bytes f₂ pos := by
  intro f₁
  induction f₁ with
  | zero => intro f₂ pos h1 _; omega
  | succ n ih =>
    intro f₂ pos h1 h2
    match f₂ with
    | 0 => omega
    | m + 1 =>
      simp only [chainF]
      split
      · rename_i hg
        rw [ih m (pos + 4 + lenAt bytes pos) (by omega) (by omega)]
      · rfl

theorem chain_step (bytes : List Nat) (pos : Nat) :
    chain bytes pos =
      if pos + 4 ≤ bytes.length then
        (pos, kindAt bytes pos, lenAt bytes pos) :: chain bytes (pos + 4 + lenAt bytes pos)
      else [] := by
  show chainF bytes (bytes.length + 1) pos = _
  simp only [chainF]
  split
  · rename_i hg
    have : chainF bytes bytes.length (pos + 4 + lenAt bytes pos) =
        chainF bytes (bytes.length + 1) (pos + 4 + lenAt bytes pos) :=
      chainF_eq_of_lt bytes _ _ _ (by omega) (by omega)
    rw [this]
    rfl
  · rfl

theorem scanLoopF_eq_filterMap (decode : List Nat → PrrRecord) (bytes : List Nat)
    (startPos endPos : Nat) :
    ∀ fuel pos, endPos - pos ≤ fuel → startPos ≤ pos + 4 →
      (∀ r ∈ chain bytes pos, r.2.2 ≤ 100000) →
      scanLoopF decode bytes startPos endPos fuel pos =
        (chain bytes pos).filterMap (acceptRec decode bytes endPos) := by
  intro fuel
  induction fuel with
  | zero =>
    intro pos h1 h2 h3
    simp only [scanLoopF]
    symm
    apply List.filterMap_eq_nil_iff.mpr
    intro r hr
    have hge := chain_mem_ge bytes pos r hr
    simp only [acceptRec]
    rw [if_neg]
    intro hc
    exact absurd hc.2.1 (by omega)
  | succ n ih =>
    intro pos h1 h2 h3
    by_cases hg : pos < endPos ∧ pos + 4 ≤ bytes.length
    · have hchain : chain bytes pos =
          (pos, kindAt bytes pos, lenAt bytes pos) :: chain bytes (pos + 4 + lenAt bytes pos) := by
        rw [chain_step, if_pos hg.2]
      have h3' : ∀ r ∈ chain bytes (pos + 4 + lenAt bytes pos), r.2.2 ≤ 100000 := by
        intro r hr
        exact h3 r (by rw [hchain]; exact List.mem_cons_of_mem _ hr)
      have hlen : lenAt bytes pos ≤ 100000 := by
        have := h3 (pos, kindAt bytes pos, lenAt bytes pos)
          (by rw [hchain]; exact List.mem_cons_self _ _)
        exact this
      have h2' : startPos ≤ pos + 4 + lenAt bytes pos + 4 := by omega
      rw [hchain]
      simp only [scanLoopF]
      rw [if_pos hg]
      by_cases hin : isInRange (pos + 4) (lenAt bytes pos) startPos endPos = true
      · rw [if_pos hin]
        simp only [isInRange, Bool.and_eq_true, decide_eq_true_eq] at hin
        obtain ⟨⟨hin1, hin2⟩, hin3⟩ := hin
        by_cases hprr : isPrrTypeMatch (kindAt bytes pos) = true
        · rw [if_pos hprr]
          by_cases hpl : prrSanityOk (decode (payloadAt bytes pos (lenAt bytes pos))) = true
          · rw [if_pos hpl]
            rw [List.filterMap_cons_some]
            · exact congrArg _ (ih _ (by omega) h2' h3')
            · simp only [acceptRec]
              rw [if_pos ⟨hin1, by omega, hprr, hpl⟩]
          · rw [if_neg hpl]
            rw [List.filterMap_cons_none]
            · exact ih _ (by omega) h2' h3'
            · simp only [acceptRec]
              rw [if_neg]
              intro hc
              exact hpl hc.2.2.2
        · rw [if_neg hprr]
          rw [if_neg (by omega : ¬ 100000 < lenAt bytes pos)]
          rw [List.filterMap_cons_none]
          · exact ih _ (by omega) h2' h3'
          · simp only [acceptRec]
            rw [if_neg]
            intro hc
            exact hprr hc.2.2.1
      · rw [if_neg hin]
        have hend : ¬ pos + 4 + 4 + lenAt bytes pos ≤ endPos := by
          intro hc
          exact hin (by
            simp only [isInRange, Bool.and_eq_true, decide_eq_true_eq]
            exact ⟨⟨hlen, h2⟩, hc⟩)
        rw [List.filterMap_cons_none]
        case _ =>
          by_cases hz : lenAt bytes pos = 0 ∨ 100000 < lenAt bytes pos
          · rw [if_pos hz]
            have hz0 : lenAt bytes pos = 0 := by
              rcases hz with h | h
              · exact h
              · omega
            symm
            apply List.filterMap_eq_nil_iff.mpr
            intro r hr
            have hge := chain_mem_ge bytes _ r hr
            simp only [acceptRec]
            rw [if_neg]
            intro hc
            exact absurd hc.2.1 (by omega)
          · rw [if_neg hz]
            exact ih _ (by omega) h2' h3'
        case _ =>
          simp only [acceptRec]
          rw [if_neg]
          intro hc
          exact absurd hc.2.1 (by omega)
    · have hstop : scanLoopF decode bytes startPos endPos (n + 1) pos = [] := by
        simp only [scanLoopF]
        rw [if_neg hg]
      rw [hstop]
      by_cases hlen4 : pos + 4 ≤ bytes.length
      · have hend : ¬ pos < endPos := fun hc => hg ⟨hc, hlen4⟩
        symm
        apply List.filterMap_eq_nil_iff.mpr
        intro r hr
        have hge := chain_mem_ge bytes pos r hr
        simp only [acceptRec]
        rw [if_neg]
        intro hc
        exact absurd hc.2.1 (by omega)
      · rw [chain_step, if_neg hlen4]
        rfl

theorem chain_split (bytes : List Nat) (N : Nat) :
    ∀ k pos, bytes.length - pos ≤ k →
      N ∈ (chain bytes pos).map (fun r => r.1) →
      ∃ pre, chain bytes pos = pre ++ chain bytes N ∧
        ∀ r ∈ pre, r.1 < N ∧ r.1 + 4 + r.2.2 ≤ N := by
  intro k
  induction k with
  | zero =>
    intro pos hk hmem
    rw [chain_step, if_neg (by omega)] at hmem
    simp at hmem
  | succ n ih =>
    intro pos hk hmem
    by_cases h4 : pos + 4 ≤ bytes.length
    · have hchain : chain bytes pos =
          (pos, kindAt bytes pos, lenAt bytes pos) :: chain bytes (pos + 4 + lenAt bytes pos) := by
        rw [chain_step, if_pos h4]
      rw [hchain] at hmem
      rcases List.mem_map.mp hmem with ⟨r, hr, hrN⟩
      rcases List.mem_cons.mp hr with hr0 | hrtail
      · refine ⟨[], ?_, by simp⟩
        rw [hchain]
        have : N = pos := by rw [← hrN, hr0]
        rw [this, hchain]
        rfl
      · have hge : pos + 4 + lenAt bytes pos ≤ N := by
          have := chain_mem_ge bytes _ r hrtail
          omega
        have hmem' : N ∈ (chain bytes (pos + 4 + lenAt bytes pos)).map (fun r => r.1) :=
          List.mem_map.mpr ⟨r, hrtail, hrN⟩
        rcases ih (pos + 4 + lenAt bytes pos) (by omega) hmem' with ⟨pre', heq, hpre'⟩
        refine ⟨(pos, kindAt bytes pos, lenAt bytes pos) :: pre', ?_, ?_⟩
        · rw [hchain, heq]
          rfl
        · intro r hr
          rcases List.mem_cons.mp hr with hr0 | hrtail'
          · subst hr0
            constructor
            · show pos < N
              omega
            · show pos + 4 + lenAt bytes pos ≤ N
              omega
          · exact hpre' r hrtail'
    · rw [chain_step, if_neg h4] at hmem
      simp at hmem

theorem chain_decomp (bytes : List Nat) :
    ∀ pre p r post, chain bytes p = pre ++ r :: post →
      post = chain bytes (r.1 + 4 + r.2.2) := by
  intro pre
  induction pre with
  | nil =>
    intro p r post heq
    by_cases h4 : p + 4 ≤ bytes.length
    · rw [chain_step, if_pos h4] at heq
      simp only [List.nil_append] at heq
      have h1 := (List.cons.injEq _ _ _ _).mp heq
      have hr : r = (p, kindAt bytes p, lenAt bytes p) := h1.1.symm
      rw [← h1.2, hr]
    · rw [chain_step, if_neg h4] at heq
      simp at heq
  | cons x pre' ih =>
    intro p r post heq
    by_cases h4 : p + 4 ≤ bytes.length
    · rw [chain_step, if_pos h4] at heq
      simp only [List.cons_append] at heq
      have h1 := (List.cons.injEq _ _ _ _).mp heq
      exact ih _ r post h1.2
    · rw [chain_step, if_neg h4] at heq
      simp at heq

theorem extractPrrRecords_eq_scan (decode : List Nat → PrrRecord) (bytes : List Nat)
    (s e : Int) (hs0 : 0 ≤ s) (hse : s < e) (he : e ≤ (bytes.length : Int))
    (hfar : s = 0 → farValid bytes = true) :
    extractPrrRecords decode (some bytes) s e =
      ⟨scanRecords decode bytes s.toNat e.toNat, .ok⟩ := by
  simp only [extractPrrRecords, clampStart, clampEnd]
  rw [if_neg (by omega : ¬ s < 0), if_neg (by omega : ¬ (e < 0 ∨ e > (bytes.length : Int)))]
  rw [if_neg (by omega : ¬ s ≥ e)]
  by_cases hs : s.toNat = 0
  · rw [if_pos hs]
    have : s = 0 := by omega
    rw [if_pos (hfar this), hs]
  · rw [if_neg hs]

theorem chain_end_hits_boundary (bytes : List Nat) (N : Nat) (r : Nat × Nat × Nat)
    (hr : r ∈ chain bytes 0) (hlt : r.1 < N) (hEle : r.1 + 4 + r.2.2 ≤ N)
    (hEgt : N < r.1 + 8 + r.2.2)
    (hbound : N ∈ (chain bytes 0).map (fun q => q.1)) :
    r.1 + 4 + r.2.2 = N := by
  by_contra hne
  have hElt : r.1 + 4 + r.2.2 < N := by omega
  rcases List.append_of_mem hr with ⟨l1, l2, hsplit⟩
  have hl2 : l2 = chain bytes (r.1 + 4 + r.2.2) := chain_decomp bytes l1 0 r l2 hsplit
  rcases List.mem_map.mp hbound with ⟨x, hx, hxN⟩
  rw [hsplit] at hx
  rcases List.mem_append.mp hx with hx1 | hx2
  · rcases List.append_of_mem hx1 with ⟨a, b, hl1⟩
    have hsplit' : chain bytes 0 = a ++ x :: (b ++ r :: l2) := by
      rw [hsplit, hl1]
      simp [List.append_assoc]
    have hpost : b ++ r :: l2 = chain bytes (x.1 + 4 + x.2.2) :=
      chain_decomp bytes a 0 x (b ++ r :: l2) hsplit'
    have hrmem : r ∈ chain bytes (x.1 + 4 + x.2.2) := by
      rw [← hpost]
      exact List.mem_append_right b (List.mem_cons_self _ _)
    have := chain_mem_ge bytes _ r hrmem
    omega
  · rcases List.mem_cons.mp hx2 with hx0 | hxl2
    · rw [hx0] at hxN
      omega
    · rw [hl2] at hxl2
      by_cases h4 : r.1 + 4 + r.2.2 + 4 ≤ bytes.length
      · rw [chain_step, if_pos h4] at hxl2
        rcases List.mem_cons.mp hxl2 with hx0 | hxtail
        · have : x.1 = r.1 + 4 + r.2.2 := by rw [hx0]
          omega
        · have := chain_mem_ge bytes _ x hxtail
          omega
      · rw [chain_step, if_neg h4] at hxl2
        simp at hxl2

/-- A concrete external payload decoder for evaluating the scanner on
sample files (the scanner is parametric in the decoder). -/
def sampleDecode : List Nat → PrrRecord :=
  fun _ => ⟨0, 0, 0, 0, 0, 0, 0, 0, none, none, false, false, false, false⟩

/-- A sample file: a valid FAR record on bytes 0-5, a PRR record
(kind 16, payload length 4) on bytes 6-13, and a trailing non-PRR
record on bytes 14-17. -/
def sampleFilePrr : List Nat := [2, 0, 0, 0, 2, 4, 4, 0, 16, 0, 9, 9, 9, 9, 0, 0, 1, 0]

/-- A sample file whose byte 10 is a record boundary: a valid FAR record
on bytes 0-5, a non-PRR record on bytes 6-9, a PRR record (kind 16,
empty payload) on bytes 10-13, and a trailing non-PRR record on
bytes 14-17. -/
def sampleFileBoundary : List Nat := [2, 0, 0, 0, 2, 4, 0, 0, 1, 0, 0, 0, 16, 0, 0, 0, 1, 0]

/-- C2, counterexample: for the file `sampleFilePrr` (unchanged between
calls) and the offsets `N = 8`, `M = 18`, extraction over `[0, 8)` and
then over `[8, 18)` yields, concatenated, a different record sequence
than one extraction over `[0, 18)`: the single pass returns the PRR
record spanning bytes 6-13, while the split passes return nothing — the
first pass skips past the record that crosses offset 8, and the second
pass starts mid-record at byte 8 and misparses payload bytes as a
header.  The claim's quantification over all offsets `0 < N < M` is
therefore false on the code. -/
theorem split_scan_midrecord_counterexample :
    (extractPrrRecords sampleDecode (some sampleFilePrr) 0 8).records ++
      (extractPrrRecords sampleDecode (some sampleFilePrr) 8 18).records ≠
      (extractPrrRecords sampleDecode (some sampleFilePrr) 0 18).records := by
  decide

/-- C2 (amended): for every file unchanged between calls and all offsets
`0 < N < M` with `M` within the file, running `extractPrrRecords` over
`[0, N)` and then over `[N, M)` yields, concatenated, the same sequence
of target records (same records, same order) as a single run over
`[0, M)` — provided the file passes the FAR validation, `N` coincides
with a boundary of the file's record tiling, no record length exceeds
the scanner's sanity ceiling, and the record whose extent ends exactly
at `N` is not of a PRR kind.  The counterexample forces the boundary
restriction (a split inside a record loses it and misaligns the second
pass), and the 4-byte overshoot in `isInRange` (which is called after
the header has been consumed) forces the last-record restriction: a
target record ending exactly at `N` is dropped by both split passes but
kept by the single pass. -/
theorem split_scan_boundary_concat (decode : List Nat → PrrRecord) (bytes : List Nat)
    (N M : Nat) (hfar : farValid bytes = true) (h0N : 0 < N) (hNM : N < M)
    (hM : M ≤ bytes.length)
    (hbound : N ∈ (chain bytes 0).map (fun r => r.1))
    (hsane : ∀ r ∈ chain bytes 0, r.2.2 ≤ 100000)
    (hcut : ∀ r ∈ chain bytes 0, r.1 + 4 + r.2.2 = N → isPrrTypeMatch r.2.1 = false) :
    (extractPrrRecords decode (some bytes) 0 N).records ++
      (extractPrrRecords decode (some bytes) N M).records =
      (extractPrrRecords decode (some bytes) 0 M).records := by
  have hN0' : (0 : Int) < (N : Int) := by exact_mod_cast h0N
  have hNleL : (N : Int) ≤ (bytes.length : Int) := by exact_mod_cast (by omega : N ≤ bytes.length)
  have hM0' : (0 : Int) < (M : Int) := by exact_mod_cast (by omega : 0 < M)
  have hMleL : (M : Int) ≤ (bytes.length : Int) := by exact_mod_cast hM
  have hNM' : (N : Int) < (M : Int) := by exact_mod_cast hNM
  rcases chain_split bytes N bytes.length 0 (by omega) hbound with ⟨pre, heq, hpre⟩
  have hsubset : ∀ r ∈ chain bytes N, r ∈ chain bytes 0 := by
    intro r hr
    rw [heq]
    exact List.mem_append_right pre hr
  have hsaneN : ∀ r ∈ chain bytes N, r.2.2 ≤ 100000 := fun r hr => hsane r (hsubset r hr)
  have r1 : (extractPrrRecords decode (some bytes) 0 N).records =
      scanRecords decode bytes 0 N := by
    rw [extractPrrRecords_eq_scan decode bytes 0 (N : Int) (by omega) hN0' hNleL
      (fun _ => hfar)]
    simp
  have r2 : (extractPrrRecords decode (some bytes) N M).records =
      scanRecords decode bytes N M := by
    rw [extractPrrRecords_eq_scan decode bytes (N : Int) (M : Int) (by omega) hNM' hMleL
      (fun h => absurd h (by omega))]
    simp
  have r3 : (extractPrrRecords decode (some bytes) 0 M).records =
      scanRecords decode bytes 0 M := by
    rw [extractPrrRecords_eq_scan decode bytes 0 (M : Int) (by omega) hM0' hMleL
      (fun _ => hfar)]
    simp
  have c1 : scanRecords decode bytes 0 N =
      (chain bytes 0).filterMap (acceptRec decode bytes N) :=
    scanLoopF_eq_filterMap decode bytes 0 N (N + 1) 0 (by omega) (by omega) hsane
  have c2 : scanRecords decode bytes N M =
      (chain bytes N).filterMap (acceptRec decode bytes M) :=
    scanLoopF_eq_filterMap decode bytes N M (M + 1) N (by omega) (by omega) hsaneN
  have c3 : scanRecords decode bytes 0 M =
      (chain bytes 0).filterMap (acceptRec decode bytes M) :=
    scanLoopF_eq_filterMap decode bytes 0 M (M + 1) 0 (by omega) (by omega) hsane
  rw [r1, r2, r3, c1, c2, c3, heq, List.filterMap_append, List.filterMap_append]
  have hnilN : (chain bytes N).filterMap (acceptRec decode bytes N) = [] := by
    apply List.filterMap_eq_nil_iff.mpr
    intro r hr
    have hge := chain_mem_ge bytes N r hr
    simp only [acceptRec]
    rw [if_neg]
    intro hc
    exact absurd hc.2.1 (by omega)
  rw [hnilN, List.append_nil]
  congr 1
  apply List.filterMap_congr
  intro r hrpre
  have hprer := hpre r hrpre
  have hrchain : r ∈ chain bytes 0 := by
    rw [heq]
    exact List.mem_append_left _ hrpre
  by_cases hcase : r.1 + 8 + r.2.2 ≤ N
  · simp only [acceptRec]
    by_cases hc : r.2.2 ≤ 100000 ∧ isPrrTypeMatch r.2.1 = true ∧
        prrSanityOk (decode (payloadAt bytes r.1 r.2.2)) = true
    · rw [if_pos ⟨hc.1, hcase, hc.2.1, hc.2.2⟩, if_pos ⟨hc.1, by omega, hc.2.1, hc.2.2⟩]
    · rw [if_neg, if_neg]
      · intro h
        exact hc ⟨h.1, h.2.2.1, h.2.2.2⟩
      · intro h
        exact hc ⟨h.1, h.2.2.1, h.2.2.2⟩
  · have hEnd : r.1 + 4 + r.2.2 = N :=
      chain_end_hits_boundary bytes N r hrchain hprer.1 hprer.2 (by omega) hbound
    have hnoprr : isPrrTypeMatch r.2.1 = false := hcut r hrchain hEnd
    have hA : acceptRec decode bytes N r = none := by
      simp only [acceptRec]
      rw [if_neg]
      intro h
      exact absurd h.2.1 (by omega)
    have hB : acceptRec decode bytes M r = none := by
      simp only [acceptRec]
      rw [if_neg]
      intro h
      rw [hnoprr] at h
      exact Bool.false_ne_true h.2.2.1
    rw [hA, hB]

/-- Witness for the amended C2 theorem: on `sampleFileBoundary` with the
record-boundary offset `N = 10` and `M = 18`, all hypotheses hold and
the two split passes concatenate to the single pass. -/
theorem split_scan_boundary_concat_witness :
    farValid sampleFileBoundary = true ∧
    (10 : Nat) ∈ (chain sampleFileBoundary 0).map (fun r => r.1) ∧
    (extractPrrRecords sampleDecode (some sampleFileBoundary) 0 10).records ++
      (extractPrrRecords sampleDecode (some sampleFileBoundary) 10 18).records =
      (extractPrrRecords sampleDecode (some sampleFileBoundary) 0 18).records :=
  ⟨by decide, by decide,
    split_scan_boundary_concat sampleDecode sampleFileBoundary 10 18 (by decide) (by decide)
      (by decide) (by decide) (by decide) (by decide) (by decide)⟩

/-- C1: for every call `extractPrrRecords(path, startPos, endPos)`,
every record in the returned sequence has its entire extent (4-byte
header plus payload length) contained in the clamped range
`[startPos, endPos)`: the record starts at or after the range start and
its extent ends at or before the range end, so no returned record's
extent crosses either range boundary.  (Records that start inside the
range but extend past `endPos` fail the same bound and are therefore
never in the result — the scanner skips them without decoding.) -/
theorem extract_records_within_range (decode : List Nat → PrrRecord) (bytes : List Nat)
    (startPos endPos : Int) (r : Extracted)
    (h : r ∈ (extractPrrRecords decode (some bytes) startPos endPos).records) :
    (clampStart startPos).toNat ≤ r.pos ∧
      r.pos + 4 + r.len ≤ (clampEnd endPos bytes.length).toNat := by
  simp only [extractPrrRecords] at h
  split at h
  · simp at h
  · split at h
    · split at h
      · have hb := scanLoopF_mem_bounds decode bytes 0
          (clampEnd endPos bytes.length).toNat _ _ r h
        have h0 : (clampStart startPos).toNat = 0 := by
          rename_i hz _
          exact hz
        omega
      · simp at h
    · have hb := scanLoopF_mem_bounds decode bytes (clampStart startPos).toNat
        (clampEnd endPos bytes.length).toNat _ _ r h
      omega

/-- Witness for the C1 theorem: the PRR record of `sampleFilePrr`
returned by a scan of `[0, 18)` lies entirely inside the clamped range. -/
theorem extract_records_within_range_witness :
    (⟨6, 4, sampleDecode [9, 9, 9, 9]⟩ : Extracted) ∈
      (extractPrrRecords sampleDecode (some sampleFilePrr) 0 18).records ∧
    (clampStart 0).toNat ≤ 6 ∧ 6 + 4 + 4 ≤ (clampEnd 18 sampleFilePrr.length).toNat :=
  ⟨by decide,
    extract_records_within_range sampleDecode sampleFilePrr 0 18
      (⟨6, 4, sampleDecode [9, 9, 9, 9]⟩ : Extracted) (by decide)⟩

/-- C5: for every call `extractPrrRecords(path, 0, endPos)` (start
position 0) over a non-degenerate range, the one-time format validation
gates the whole scan: when the first header is not the file-attributes
kind or the embedded CPU-type is not 2 or the format-version is not 4
(`farValid` false), the scan aborts with zero records and the
`UnsupportedFormat` signal; when the validation passes, the result is
exactly the plain record-parsing loop (which never re-validates, so the
check happens once, not per record); and for every call with a clamped
start position above 0 the result is the plain record-parsing loop with
no format validation at all. -/
theorem far_validation_gate (decode : List Nat → PrrRecord) (bytes : List Nat) :
    (∀ e : Int, farValid bytes = false → 0 < clampEnd e bytes.length →
      extractPrrRecords decode (some bytes) 0 e = ⟨[], .unsupportedFormat⟩) ∧
    (∀ e : Int, farValid bytes = true → 0 < clampEnd e bytes.length →
      extractPrrRecords decode (some bytes) 0 e =
        ⟨scanRecords decode bytes 0 (clampEnd e bytes.length).toNat, .ok⟩) ∧
    (∀ s e : Int, 0 < clampStart s → clampStart s < clampEnd e bytes.length →
      extractPrrRecords decode (some bytes) s e =
        ⟨scanRecords decode bytes (clampStart s).toNat (clampEnd e bytes.length).toNat,
          .ok⟩) := by
  have h0 : clampStart 0 = 0 := by simp [clampStart]
  refine ⟨?_, ?_, ?_⟩
  · intro e hfar he
    simp only [extractPrrRecords, h0]
    rw [if_neg (by omega : ¬ (0 : Int) ≥ clampEnd e bytes.length)]
    rw [if_pos (show ((0 : Int)).toNat = 0 from rfl)]
    rw [if_neg (by simp [hfar])]
  · intro e hfar he
    simp only [extractPrrRecords, h0]
    rw [if_neg (by omega : ¬ (0 : Int) ≥ clampEnd e bytes.length)]
    rw [if_pos (show ((0 : Int)).toNat = 0 from rfl)]
    rw [if_pos hfar]
  · intro s e hs hse
    simp only [extractPrrRecords]
    rw [if_neg (by omega : ¬ clampStart s ≥ clampEnd e bytes.length)]
    rw [if_neg (by omega : ¬ (clampStart s).toNat = 0)]

/-- Witness for the C5 theorem: a file whose first header is not a FAR
record aborts with `UnsupportedFormat` and zero records; `sampleFilePrr`
passes validation and scans from 0; a scan from byte 6 skips validation
and runs the loop directly. -/
theorem far_validation_gate_witness :
    extractPrrRecords sampleDecode (some [0, 0, 5, 0]) 0 4 = ⟨[], .unsupportedFormat⟩ ∧
    extractPrrRecords sampleDecode (some sampleFilePrr) 0 18 =
      ⟨scanRecords sampleDecode sampleFilePrr 0 (clampEnd 18 sampleFilePrr.length).toNat,
        .ok⟩ ∧
    extractPrrRecords sampleDecode (some sampleFilePrr) 6 18 =
      ⟨scanRecords sampleDecode sampleFilePrr (clampStart 6).toNat
        (clampEnd 18 sampleFilePrr.length).toNat, .ok⟩ :=
  ⟨(far_validation_gate sampleDecode [0, 0, 5, 0]).1 4 (by decide) (by decide),
    (far_validation_gate sampleDecode sampleFilePrr).2.1 18 (by decide) (by decide),
    (far_validation_gate sampleDecode sampleFilePrr).2.2 6 18 (by decide) (by decide)⟩

/-- C8: for every call `extractPrrRecords` on an openable file where,
after clamping the start position to at least 0 and the end position to
at most the file size, start is at or beyond end, the function returns
an empty sequence with the `InvalidRange` signal; consequently a
checkpoint message with non-negative `read_position` at or below
`previous_position` is processed to an empty record list and is still
acknowledged (the empty artifact is written), with no error raised. -/
theorem invalid_range_empty_result :
    (∀ (decode : List Nat → PrrRecord) (bytes : List Nat) (s e : Int),
      clampStart s ≥ clampEnd e bytes.length →
      extractPrrRecords decode (some bytes) s e = ⟨[], .invalidRange⟩) ∧
    (∀ (fs : String → Option (List Nat)) (decode : List Nat → PrrRecord) (now : Int)
      (f : String) (pp rp : Int), 0 ≤ rp → rp ≤ pp →
      processMessage fs decode now
        [("temp_file_name", .str f), ("previous_position", .num pp),
          ("read_position", .num rp)] =
        .settled .ack (some ⟨pp, rp, now, [],
          savePrrRecords [] ("/tmp/IFLEX-18/Output/Output.json") now⟩)) := by
  have hpart1 : ∀ (decode : List Nat → PrrRecord) (bytes : List Nat) (s e : Int),
      clampStart s ≥ clampEnd e bytes.length →
      extractPrrRecords decode (some bytes) s e = ⟨[], .invalidRange⟩ := by
    intro decode bytes s e h
    simp only [extractPrrRecords]
    rw [if_pos h]
  refine ⟨hpart1, ?_⟩
  intro fs decode now f pp rp h0 hle
  have hnorm : normalizeCheckpoint
      [("temp_file_name", .str f), ("previous_position", .num pp),
        ("read_position", .num rp)] now = .ok f pp rp now := by
    simp [normalizeCheckpoint, getField]
  simp only [processMessage, hnorm]
  have hrec : (extractPrrRecords decode (fs ("/tmp/IFLEX-18/" ++ f)) pp rp).records = [] := by
    cases hfs : fs ("/tmp/IFLEX-18/" ++ f) with
    | none => rfl
    | some bytes =>
      rw [hpart1 decode bytes pp rp (by
        simp only [clampStart, clampEnd]
        split_ifs <;> omega)]
  rw [hrec]
  rfl

/-- Witness for the C8 theorem: a degenerate range `[7, 3)` on
`sampleFilePrr` yields the empty `InvalidRange` result, and a checkpoint
with `read_position = 3 ≤ previous_position = 7` is acknowledged with an
empty record list. -/
theorem invalid_range_empty_result_witness :
    extractPrrRecords sampleDecode (some sampleFilePrr) 7 3 = ⟨[], .invalidRange⟩ ∧
    processMessage (fun _ => some sampleFilePrr) sampleDecode 5
      [("temp_file_name", .str "f"), ("previous_position", .num 7),
        ("read_position", .num 3)] =
      .settled .ack (some ⟨7, 3, 5, [],
        savePrrRecords [] ("/tmp/IFLEX-18/Output/Output.json") 5⟩) :=
  ⟨invalid_range_empty_result.1 sampleDecode sampleFilePrr 7 3 (by decide),
    invalid_range_empty_result.2 (fun _ => some sampleFilePrr) sampleDecode 5 ("f") 7 3
      (by decide) (by decide)⟩

/-- C10: when the input file cannot be opened, `extractPrrRecords`
returns an empty sequence (with the open-failure signal, not an
exception); the orchestrator then writes the empty-result artifact and
acknowledges the message as a success; and the whole per-message outcome
is equal to the outcome for any filesystem on which the same file is
readable but yields zero records, so at the queue interface a missing
input file is indistinguishable from a readable file with no target
records in range. -/
theorem open_failure_indistinguishable_from_empty :
    (∀ (decode : List Nat → PrrRecord) (s e : Int),
      extractPrrRecords decode none s e = ⟨[], .openFailure⟩) ∧
    (∀ (fs : String → Option (List Nat)) (decode : List Nat → PrrRecord) (now : Int)
        (msg : Message) (f : String) (sp ep st : Int),
      normalizeCheckpoint msg now = .ok f sp ep st →
      fs ("/tmp/IFLEX-18/" ++ f) = none →
      processMessage fs decode now msg =
        .settled .ack (some ⟨sp, ep, st, [],
          savePrrRecords [] ("/tmp/IFLEX-18/Output/Output.json") st⟩)) ∧
    (∀ (fs fs' : String → Option (List Nat)) (decode : List Nat → PrrRecord) (now : Int)
        (msg : Message) (f : String) (sp ep st : Int),
      normalizeCheckpoint msg now = .ok f sp ep st →
      fs ("/tmp/IFLEX-18/" ++ f) = none →
      (extractPrrRecords decode (fs' ("/tmp/IFLEX-18/" ++ f)) sp ep).records = [] →
      processMessage fs decode now msg = processMessage fs' decode now msg) := by
  refine ⟨fun _ _ _ => rfl, ?_, ?_⟩
  · intro fs decode now msg f sp ep st hnorm hfs
    simp only [processMessage, hnorm, hfs]
    rfl
  · intro fs fs' decode now msg f sp ep st hnorm hfs hempty
    simp only [processMessage, hnorm, hfs]
    rw [hempty]
    rfl

/-- Witness for the C10 theorem: for a checkpoint naming a file that the
all-empty filesystem cannot provide, the message is acknowledged with
the empty artifact, and the outcome equals the one on a filesystem where
the file exists but holds no records in range. -/
theorem open_failure_indistinguishable_from_empty_witness :
    extractPrrRecords sampleDecode none 0 18 = ⟨[], .openFailure⟩ ∧
    processMessage (fun _ => none) sampleDecode 7
      [("temp_file_name", .str "f"), ("read_position", .num 5)] =
      .settled .ack (some ⟨0, 5, 7, [],
        savePrrRecords [] ("/tmp/IFLEX-18/Output/Output.json") 7⟩) ∧
    processMessage (fun _ => none) sampleDecode 7
      [("temp_file_name", .str "f"), ("read_position", .num 5)] =
      processMessage (fun _ => some []) sampleDecode 7
        [("temp_file_name", .str "f"), ("read_position", .num 5)] :=
  ⟨open_failure_indistinguishable_from_empty.1 sampleDecode 0 18,
    open_failure_indistinguishable_from_empty.2.1 (fun _ => none) sampleDecode 7
      [("temp_file_name", .str "f"), ("read_position", .num 5)] ("f") 0 5 7
      (by decide) rfl,
    open_failure_indistinguishable_from_empty.2.2 (fun _ => none) (fun _ => some [])
      sampleDecode 7 [("temp_file_name", .str "f"), ("read_position", .num 5)]
      ("f") 0 5 7 (by decide) rfl (by decide)⟩

/-- C3, counterexample: for a parsed message body lacking
`read_position`, the consumer does not reject the message — it settles
it with a positive acknowledgement (`amqp_basic_ack`,
`src/index.cpp` lines 181 and 214) before moving on, so the claim's
"rejects the message ... does not acknowledge it" is false on the
code. -/
theorem missing_read_position_acked_counterexample :
    processMessage (fun _ => none) sampleDecode 0 [("temp_file_name", .str "f")] =
      .settled .ack none ∧ Settle.ack ≠ Settle.reject :=
  ⟨rfl, by decide⟩

/-- C3 (amended): for every incoming queue message whose parsed body
lacks the key `temp_file_name` or the key `read_position` (or holds
null there), the consumer settles the message with a positive
acknowledgement — not a reject — which still removes it from the queue
without requeueing; it performs no extraction for it and proceeds to
the next message without a process fault.  (For the `read_position`
case the earlier `previous_position` field, when present, must itself
be well-formed, since its conversion runs first and an unparseable
value there is an uncaught exception.) -/
theorem missing_required_field_settled_without_requeue :
    (∀ (fs : String → Option (List Nat)) (decode : List Nat → PrrRecord) (now : Int)
        (msg : Message),
      (getField msg ("temp_file_name") = none ∨
        getField msg ("temp_file_name") = some .null) →
      processMessage fs decode now msg = .settled .ack none) ∧
    (∀ (fs : String → Option (List Nat)) (decode : List Nat → PrrRecord) (now : Int)
        (msg : Message) (f : String),
      getField msg ("temp_file_name") = some (.str f) →
      (getField msg ("previous_position") = none ∨
        getField msg ("previous_position") = some .null ∨
        (∃ n : Int, getField msg ("previous_position") = some (.num n)) ∨
        (∃ s n, getField msg ("previous_position") = some (.str s) ∧
          parseIntStr (stripCommas s) = some n)) →
      (getField msg ("read_position") = none ∨
        getField msg ("read_position") = some .null) →
      processMessage fs decode now msg = .settled .ack none) := by
  constructor
  · intro fs decode now msg h
    rcases h with h | h <;> simp [processMessage, normalizeCheckpoint, h]
  · intro fs decode now msg f hf hpp hrp
    rcases hpp with h | h | ⟨n, h⟩ | ⟨s, n, h, hparse⟩
    · rcases hrp with h2 | h2 <;> simp [processMessage, normalizeCheckpoint, hf, h, h2]
    · rcases hrp with h2 | h2 <;> simp [processMessage, normalizeCheckpoint, hf, h, h2]
    · rcases hrp with h2 | h2 <;> simp [processMessage, normalizeCheckpoint, hf, h, h2]
    · rcases hrp with h2 | h2 <;>
        simp [processMessage, normalizeCheckpoint, hf, h, h2, hparse]

/-- Witness for the amended C3 theorem: a message without
`temp_file_name` is acked with no work, and a message with a file name
and numeric `previous_position` but no `read_position` is acked with no
work. -/
theorem missing_required_field_settled_without_requeue_witness :
    processMessage (fun _ => none) sampleDecode 3
      [("previous_position", JsonVal.num 9)] = .settled .ack none ∧
    processMessage (fun _ => none) sampleDecode 3
      [("temp_file_name", .str "g"), ("previous_position", .num 9)] =
      .settled .ack none :=
  ⟨missing_required_field_settled_without_requeue.1 (fun _ => none) sampleDecode 3
      [("previous_position", JsonVal.num 9)] (Or.inl (by decide)),
    missing_required_field_settled_without_requeue.2 (fun _ => none) sampleDecode 3
      [("temp_file_name", .str "g"), ("previous_position", .num 9)] ("g") (by decide)
      (Or.inr (Or.inr (Or.inl ⟨9, by decide⟩))) (Or.inl (by decide))⟩

/-- C7: for structurally valid checkpoint messages, the consumer's field
normalization behaves as specified: a string-encoded offset has its
thousands separators (commas) stripped before numeric conversion and a
numeric encoding is accepted as-is (for both `read_position` and
`previous_position`); a missing `previous_position` defaults to 0; a
string `sync_time` in the known date-time format is parsed to the
corresponding epoch second, an unparseable string falls back to the
current time, and a numeric `sync_time` is accepted as-is; in
particular the spec's scenario message with `read_position` "1,024" and
`sync_time` "2025/02/27 13:41:21.000" normalizes to the range
`[0, 1024)` with epoch second 1740663681. -/
theorem checkpoint_field_normalization :
    (∀ (now : Int) (f s : String) (n : Int), parseIntStr (stripCommas s) = some n →
      normalizeCheckpoint [("temp_file_name", .str f), ("read_position", .str s)] now =
        .ok f 0 n now) ∧
    (∀ (now : Int) (f : String) (p n : Int),
      normalizeCheckpoint [("temp_file_name", .str f), ("previous_position", .num p),
        ("read_position", .num n)] now = .ok f p n now) ∧
    (∀ (now : Int) (f s : String) (p n : Int), parseIntStr (stripCommas s) = some p →
      normalizeCheckpoint [("temp_file_name", .str f), ("previous_position", .str s),
        ("read_position", .num n)] now = .ok f p n now) ∧
    (∀ (now : Int) (f s : String) (n t : Int), parseDateTime s = some t →
      normalizeCheckpoint [("temp_file_name", .str f), ("read_position", .num n),
        ("sync_time", .str s)] now = .ok f 0 n t) ∧
    (∀ (now : Int) (f s : String) (n : Int), parseDateTime s = none →
      normalizeCheckpoint [("temp_file_name", .str f), ("read_position", .num n),
        ("sync_time", .str s)] now = .ok f 0 n now) ∧
    (∀ (now : Int) (f : String) (n t : Int),
      normalizeCheckpoint [("temp_file_name", .str f), ("read_position", .num n),
        ("sync_time", .num t)] now = .ok f 0 n t) ∧
    (∀ now : Int,
      normalizeCheckpoint [("temp_file_name", .str ("f")),
        ("read_position", .str ("1,024")), ("previous_position", .num 0),
        ("sync_time", .str ("2025/02/27 13:41:21.000"))] now =
        .ok ("f") 0 1024 1740663681) := by
  refine ⟨?_, ?_, ?_, ?_, ?_, ?_, ?_⟩
  · intro now f s n h
    simp [normalizeCheckpoint, getField, h]
  · intro now f p n
    simp [normalizeCheckpoint, getField]
  · intro now f s p n h
    simp [normalizeCheckpoint, getField, h]
  · intro now f s n t h
    simp [normalizeCheckpoint, getField, h]
  · intro now f s n h
    simp [normalizeCheckpoint, getField, h]
  · intro now f n t
    simp [normalizeCheckpoint, getField]
  · intro now
    have h1 : parseIntStr (stripCommas ("1,024")) = some 1024 := by decide
    have h2 : parseDateTime ("2025/02/27 13:41:21.000") = some 1740663681 := by decide
    simp [normalizeCheckpoint, getField, h1, h2]

/-- Witness for the C7 theorem: concrete instances — the spec scenario
message at receipt time 99, a comma-separated string offset, and a
numeric timestamp accepted as-is. -/
theorem checkpoint_field_normalization_witness :
    normalizeCheckpoint [("temp_file_name", .str ("f")),
      ("read_position", .str ("1,024")), ("previous_position", .num 0),
      ("sync_time", .str ("2025/02/27 13:41:21.000"))] 99 =
      .ok ("f") 0 1024 1740663681 ∧
    normalizeCheckpoint [("temp_file_name", .str ("g")),
      ("read_position", .str ("2,048"))] 99 = .ok ("g") 0 2048 99 ∧
    normalizeCheckpoint [("temp_file_name", .str ("g")), ("read_position", .num 6),
      ("sync_time", .num 1234)] 99 = .ok ("g") 0 6 1234 :=
  ⟨checkpoint_field_normalization.2.2.2.2.2.2 99,
    checkpoint_field_normalization.1 99 ("g") ("2,048") 2048 (by decide),
    checkpoint_field_normalization.2.2.2.2.2.1 99 ("g") 6 1234⟩

/-- C4 (the code contradicts its own stated intent): for an empty record
sequence, `savePrrRecords` does return true (so the message is
acknowledged) and always writes a file, but the file's content is not
the bare JSON array `[]`: the code first writes the line
`// No PRR records found in the processed file range`
(`src/extractor.h` line 452) and only then the serialized empty array,
although JSON admits no comments — despite the function's own comment
"this ensures the file exists with valid JSON" (line 444). -/
theorem empty_save_writes_comment_prefixed_array :
    savePrrRecords [] ("out.json") 0 =
      ⟨true, .commentThenJson noRecordsComment (.arr [])⟩ ∧
    WrittenContent.commentThenJson noRecordsComment (.arr []) ≠
      WrittenContent.jsonOnly (.arr []) := by
  refine ⟨rfl, ?_⟩
  intro h
  exact WrittenContent.noConfusion h

/-- A sample decoded record whose text-field pointers are null. -/
def samplePrrNoText : PrrRecord :=
  ⟨1, 2, 3, 4, 5, 6, 7, 8, none, none, true, false, true, false⟩

/-- A sample decoded record with both text fields present; the part-id
bytes hold a printable letter, a newline (non-printable) and a double
quote (requires JSON escaping). -/
def samplePrrWithText : PrrRecord :=
  ⟨1, 2, 3, 4, 5, 6, 7, 2500, some [65, 10, 34], some [66], true, false, true, false⟩

/-- C6, counterexample: a record whose `part_id` and `part_text`
pointers are null produces a JSON element without the `part_id` and
`part_text` keys (`src/extractor.h` lines 503-511 add them only behind
a null check), so not every element carries exactly the claimed fixed
field set. -/
theorem save_field_set_counterexample :
    savePrrRecords [⟨0, 0, samplePrrNoText⟩] ("out.json") 0 =
      ⟨true, .jsonOnly (.arr [prrToJson 0 samplePrrNoText])⟩ ∧
    ("part_id") ∉ jsonKeys (prrToJson 0 samplePrrNoText) ∧
    ("part_text") ∉ jsonKeys (prrToJson 0 samplePrrNoText) :=
  ⟨rfl, by decide, by decide⟩

/-- C6 (amended): for every non-empty record sequence, `savePrrRecords`
emits the JSON array of per-record objects and succeeds; each element
carries the fixed field set `head_number, site_number, test_count,
hard_bin, soft_bin, x_coord, y_coord, test_time, part_flags
{superseded, abnormal, failed, invalid_flag}, last_modified, sot, eot`,
with `part_id` and `part_text` included exactly when the library hands
back a non-null pointer (the counterexample forces this weakening);
`last_modified = sync_time`, `sot = sync_time - elapsed/1000` (integer
division) and `eot = sync_time`; and the text fields go through
`sanitizeString`, which turns every non-printable byte into the
placeholder `?` and escapes the characters the code treats as requiring
JSON escaping (backslash, double quote, slash) while keeping other
printable bytes. -/
theorem save_json_field_map :
    (∀ (records : List Extracted) (name : String) (sync : Int), records ≠ [] →
      savePrrRecords records name sync =
        ⟨true, .jsonOnly (.arr (records.map (fun r => prrToJson sync r.prr)))⟩) ∧
    (∀ (sync : Int) (r : PrrRecord), jsonKeys (prrToJson sync r) =
      [("head_number"), ("site_number"), ("test_count"), ("hard_bin"), ("soft_bin"),
        ("x_coord"), ("y_coord"), ("test_time"), ("part_flags")] ++
      (match r.partId with | some _ => [("part_id")] | none => []) ++
      (match r.partTxt with | some _ => [("part_text")] | none => []) ++
      [("last_modified"), ("sot"), ("eot")]) ∧
    (∀ (sync : Int) (r : PrrRecord),
      jsonLookup (prrToJson sync r) ("last_modified") = some (.num sync) ∧
      jsonLookup (prrToJson sync r) ("eot") = some (.num sync) ∧
      jsonLookup (prrToJson sync r) ("sot") =
        some (.num (sync - (r.elapsedMs / 1000 : Nat))) ∧
      jsonLookup (prrToJson sync r) ("part_flags") =
        some (.obj [("superseded", .bool r.superseded), ("abnormal", .bool r.abnormal),
          ("failed", .bool r.failed), ("invalid_flag", .bool r.invalidFlag)])) ∧
    (∀ (sync : Int) (r : PrrRecord) (p : List Nat), r.partId = some p →
      jsonLookup (prrToJson sync r) ("part_id") = some (.str (sanitizeString p))) ∧
    (∀ (sync : Int) (r : PrrRecord) (p : List Nat), r.partTxt = some p →
      jsonLookup (prrToJson sync r) ("part_text") = some (.str (sanitizeString p))) ∧
    (∀ (c : Nat) (rest : List Nat), (c < 32 ∨ 127 ≤ c) →
      sanitizeString (c :: rest) = ("?") ++ sanitizeString rest) ∧
    (∀ (c : Nat) (rest : List Nat), 32 ≤ c → c < 127 → (c = 92 ∨ c = 34 ∨ c = 47) →
      sanitizeString (c :: rest) =
        String.mk [Char.ofNat 92, Char.ofNat c] ++ sanitizeString rest) ∧
    (∀ (c : Nat) (rest : List Nat), 32 ≤ c → c < 127 → ¬(c = 92 ∨ c = 34 ∨ c = 47) →
      sanitizeString (c :: rest) = String.mk [Char.ofNat c] ++ sanitizeString rest) := by
  refine ⟨?_, ?_, ?_, ?_, ?_, ?_, ?_, ?_⟩
  · intro records name sync h
    cases records with
    | nil => exact absurd rfl h
    | cons a l => rfl
  · intro sync r
    cases hpi : r.partId <;> cases hpt : r.partTxt <;>
      simp [prrToJson, jsonKeys, hpi, hpt]
  · intro sync r
    cases hpi : r.partId <;> cases hpt : r.partTxt <;>
      simp [prrToJson, jsonLookup, hpi, hpt]
  · intro sync r p hp
    cases hpt : r.partTxt <;> simp [prrToJson, jsonLookup, hp, hpt]
  · intro sync r p hp
    cases hpi : r.partId <;> simp [prrToJson, jsonLookup, hp, hpi]
  · intro c rest h
    simp only [sanitizeString]
    rw [if_neg (by omega)]
  · intro c rest h1 h2 h3
    simp only [sanitizeString]
    rw [if_pos ⟨h1, h2⟩, if_pos h3]
  · intro c rest h1 h2 h3
    simp only [sanitizeString]
    rw [if_pos ⟨h1, h2⟩, if_neg h3]

/-- Witness for the amended C6 theorem: a one-record sequence with both
text fields present is saved as the serialized singleton array; its
keys, timestamps and sanitized text fields evaluate as the theorem
states (the part-id bytes `[65, 10, 34]` sanitize to `A?\"`). -/
theorem save_json_field_map_witness :
    savePrrRecords [⟨0, 0, samplePrrWithText⟩] ("out.json") 5 =
      ⟨true, .jsonOnly (.arr [prrToJson 5 samplePrrWithText])⟩ ∧
    jsonKeys (prrToJson 5 samplePrrWithText) =
      [("head_number"), ("site_number"), ("test_count"), ("hard_bin"), ("soft_bin"),
        ("x_coord"), ("y_coord"), ("test_time"), ("part_flags"), ("part_id"),
        ("part_text"), ("last_modified"), ("sot"), ("eot")] ∧
    jsonLookup (prrToJson 5 samplePrrWithText) ("sot") = some (.num 3) ∧
    jsonLookup (prrToJson 5 samplePrrWithText) ("part_id") =
      some (.str (sanitizeString [65, 10, 34])) ∧
    sanitizeString (10 :: [34]) = ("?") ++ sanitizeString [34] :=
  ⟨save_json_field_map.1 [⟨0, 0, samplePrrWithText⟩] ("out.json") 5 (by decide),
    save_json_field_map.2.1 5 samplePrrWithText,
    (save_json_field_map.2.2.1 5 samplePrrWithText).2.2.1,
    save_json_field_map.2.2.2.1 5 samplePrrWithText [65, 10, 34] rfl,
    save_json_field_map.2.2.2.2.2.1 10 [34] (Or.inl (by omega))⟩

/-- C9, counterexample: the frequency table does not cover all observed
kind discriminators — a discriminator in the exact-match set returns
before any bookkeeping (`src/extractor.h` lines 128-142), so after the
classifier observes the value 16 from the empty start state, the table
is still empty (and the classification counter unchanged), not holding
an entry for 16. -/
theorem classifier_counts_only_nonmatching_counterexample :
    (isPrrRecordType initClassifier 16).isPrr = true ∧
    (isPrrRecordType initClassifier 16).state = initClassifier ∧
    initClassifier.typeCount = [] := by
  decide

/-- C9 (amended): the classifier's answer never depends on the
diagnostic state: it is true exactly for the exact-match set
`{16, 25, 185}`, so a discriminator's observed frequency never causes a
true answer.  The running frequency table covers only the kind
discriminators outside the match set (a matching value returns early,
untallied, leaving the state unchanged with no diagnostic emitted); a
non-matching value increments its table entry and the counter; whenever
the counter of such tallies reaches a multiple of 1000 and some type
has been seen more than 50 times, the top-3-by-frequency diagnostic
line is surfaced (and it is surfaced only then, holding exactly the top
3 of the types seen more than 50 times, sorted by frequency) — a log
line only, never an influence on the answer. -/
theorem classifier_match_set_and_diagnostics :
    (∀ (st st' : ClassifierState) (t : Nat),
      (isPrrRecordType st t).isPrr = (isPrrRecordType st' t).isPrr) ∧
    (∀ (st : ClassifierState) (t : Nat),
      (isPrrRecordType st t).isPrr = true ↔ (t = 16 ∨ t = 25 ∨ t = 185)) ∧
    (∀ (st : ClassifierState) (t : Nat), (t = 16 ∨ t = 25 ∨ t = 185) →
      (isPrrRecordType st t).state = st ∧ (isPrrRecordType st t).logged = none) ∧
    (∀ (st : ClassifierState) (t : Nat), ¬(t = 16 ∨ t = 25 ∨ t = 185) →
      (isPrrRecordType st t).isPrr = false ∧
      (isPrrRecordType st t).state =
        ⟨bumpCount st.typeCount t, st.totalChecks + 1⟩ ∧
      ((st.totalChecks + 1) % 1000 = 0 →
        sortByCountDesc ((bumpCount st.typeCount t).filter (fun p => 50 < p.2)) ≠ [] →
        (isPrrRecordType st t).logged =
          some ((sortByCountDesc ((bumpCount st.typeCount t).filter
            (fun p => 50 < p.2))).take 3)) ∧
      ((isPrrRecordType st t).logged ≠ none →
        (st.totalChecks + 1) % 1000 = 0 ∧
        (isPrrRecordType st t).logged =
          some ((sortByCountDesc ((bumpCount st.typeCount t).filter
            (fun p => 50 < p.2))).take 3))) := by
  have hset : ∀ t : Nat, (t = PRR_TYPE ∨ t = PRR_TYPE_ALT1 ∨ t = PRR_TYPE_ALT2) ↔
      (t = 16 ∨ t = 25 ∨ t = 185) := by
    intro t
    simp [PRR_TYPE, PRR_TYPE_ALT1, PRR_TYPE_ALT2]
  refine ⟨?_, ?_, ?_, ?_⟩
  · intro st st' t
    by_cases h : t = PRR_TYPE ∨ t = PRR_TYPE_ALT1 ∨ t = PRR_TYPE_ALT2
    · simp [isPrrRecordType, h]
    · simp only [isPrrRecordType, if_neg h]
      split_ifs <;> rfl
  · intro st t
    by_cases h : t = PRR_TYPE ∨ t = PRR_TYPE_ALT1 ∨ t = PRR_TYPE_ALT2
    · simp [isPrrRecordType, h, hset t, (hset t).mp h]
    · have hfalse : ¬(t = 16 ∨ t = 25 ∨ t = 185) := fun hc => h ((hset t).mpr hc)
      simp only [isPrrRecordType, if_neg h]
      split_ifs <;> simp [hfalse]
  · intro st t h
    have h' : t = PRR_TYPE ∨ t = PRR_TYPE_ALT1 ∨ t = PRR_TYPE_ALT2 := (hset t).mpr h
    simp [isPrrRecordType, h']
  · intro st t h
    have h' : ¬(t = PRR_TYPE ∨ t = PRR_TYPE_ALT1 ∨ t = PRR_TYPE_ALT2) :=
      fun hc => h ((hset t).mp hc)
    simp only [isPrrRecordType, if_neg h']
    split_ifs with h1 h2
    · simp_all
    · simp_all
    · simp_all

/-- Witness for the amended C9 theorem: the matched value 16 answers
true from any state and leaves the empty state untouched; the
non-matching value 7 answers false and is tallied into the table with
the counter advanced; and from the state with 999 tallies and the
type 7 already seen 60 times, the 1000th tally does surface the
diagnostic line, holding type 7 with its new count 61. -/
theorem classifier_match_set_and_diagnostics_witness :
    ((isPrrRecordType initClassifier 16).isPrr = true ↔
      ((16 : Nat) = 16 ∨ (16 : Nat) = 25 ∨ (16 : Nat) = 185)) ∧
    ((isPrrRecordType initClassifier 25).state = initClassifier ∧
      (isPrrRecordType initClassifier 25).logged = none) ∧
    (isPrrRecordType initClassifier 7).isPrr = false ∧
    (isPrrRecordType initClassifier 7).state =
      ⟨bumpCount initClassifier.typeCount 7, initClassifier.totalChecks + 1⟩ ∧
    (isPrrRecordType ⟨[(7, 60)], 999⟩ 7).logged = some [(7, 61)] :=
  ⟨classifier_match_set_and_diagnostics.2.1 initClassifier 16,
    classifier_match_set_and_diagnostics.2.2.1 initClassifier 25 (by decide),
    (classifier_match_set_and_diagnostics.2.2.2 initClassifier 7 (by decide)).1,
    (classifier_match_set_and_diagnostics.2.2.2 initClassifier 7 (by decide)).2.1,
    (classifier_match_set_and_diagnostics.2.2.2 ⟨[(7, 60)], 999⟩ 7
      (by decide)).2.2.1 (by decide) (by decide)⟩
